import Mathlib

/-!
# Verification of `sc::vector` (Projeto-Vector)

Shallow embedding of `src/source/include/vector.h`: the sequence container
`sc::vector<T>` (a dynamic array with explicit `m_storage` / `m_capacity` /
`m_end` members) and its companion iterator `sc::MyForwardIterator<T>`.

Modelling choices:
* The heap buffer is modelled as a total function `Nat → T` (flat memory):
  slot `i` of the buffer is `m_storage i`.  A fresh allocation `new T[n]`
  yields `fun _ => default` (default-initialized / junk memory), and the
  allocated extent is recorded separately in `m_capacity`, exactly as the
  C++ object records it.  Reads or writes beyond `m_capacity` thereby get a
  concrete semantics (they land in the flat memory), which lets the
  development *observe* out-of-bounds accesses instead of being undefined.
* `size_type` (`unsigned long`) sizes and indices are `Nat`; iterator
  positions handed to `insert` / `erase` are `Int` offsets from `begin()`,
  so that positions before `begin()` (negative offsets) are representable,
  as they are for raw pointers.
* C++ `throw std::out_of_range{msg}` is modelled with `Except`: a mutator
  returns `Except (String × vector T) …` whose error carries the message
  and the state of the object at the moment of the throw.
* Every `for` loop of the source is translated to a recursive function
  (one update per iteration, in source order).
-/

namespace sc

/-- The container of `vector.h`: `m_storage` (the buffer), `m_capacity`
(allocated slot count) and `m_end` (number of live elements). -/
structure vector (T : Type) where
  m_storage : Nat → T
  m_capacity : Nat
  m_end : Nat

/-- Constructor `vector(size_type cp = 0)`: `m_storage = new T[cp]; m_capacity = cp; m_end = cp;`. -/
def mkVector (T : Type) [Inhabited T] (cp : Nat) : vector T :=
  { m_storage := fun _ => default, m_capacity := cp, m_end := cp }

/-- Initializer-list constructor: `m_capacity = il.size(); m_storage = new T[m_capacity];
m_end = m_capacity; std::copy(il.begin(), il.end(), m_storage);`. -/
def ofList {T : Type} [Inhabited T] (il : List T) : vector T :=
  { m_storage := fun i => il.getD i default, m_capacity := il.length, m_end := il.length }

/-- Private member `full()`: `return m_capacity == m_end;`. -/
def full {T : Type} (v : vector T) : Bool := v.m_capacity == v.m_end

/-- Member `size()`: `return m_end;`. -/
def size {T : Type} (v : vector T) : Nat := v.m_end

/-- Member `capacity()`: `return m_capacity;`. -/
def capacity {T : Type} (v : vector T) : Nat := v.m_capacity

/-- Member `empty()`: `return m_end == 0;`. -/
def empty {T : Type} (v : vector T) : Bool := v.m_end == 0

/-- The sequence of live elements, slots `[0, m_end)` of the buffer. -/
def liveList {T : Type} (v : vector T) : List T :=
  (List.range v.m_end).map v.m_storage

/-- Loop `for (int i = 0; i < n; i++) dst[i] = src[i];` compiled with the
remaining trip count as fuel: copies `src` into `dst` at `i, i+1, …`. -/
def copyLoop {T : Type} (src : Nat → T) (dst : Nat → T) (i : Nat) : Nat → (Nat → T)
  | 0 => dst
  | fuel + 1 => copyLoop src (Function.update dst i (src i)) (i + 1) fuel

/-- Allocation `new T[cap]` followed by `for (i = 0; i < n; i++) new[i] = src[i];`
(the reallocation pattern of `reserve` / `shrink_to_fit` / the copy
constructor). -/
def newBufFrom {T : Type} [Inhabited T] (src : Nat → T) (n : Nat) : Nat → T :=
  copyLoop src (fun _ => default) 0 n

/-- Loop `for (i = start; i < start + fuel; i++) s[i] = s[i + dif];`
(the left-shift of `erase` / `pop_front`, stride `dif`). -/
def shiftLeftLoop {T : Type} (s : Nat → T) (dif i : Nat) : Nat → (Nat → T)
  | 0 => s
  | fuel + 1 => shiftLeftLoop (Function.update s i (s (i + dif))) dif (i + 1) fuel

/-- Loop `for (it = …+i; it > …+dif; it--) *it = *(it-1);`
(the right-shift of `insert` / `push_front`, descending from slot `i`
down to slot `dif + 1`). -/
def shiftUpLoop {T : Type} (s : Nat → T) (dif : Nat) : Nat → (Nat → T)
  | 0 => s
  | i + 1 =>
    if dif < i + 1 then shiftUpLoop (Function.update s (i + 1) (s i)) dif i else s

/-- Loop `for (i = start; i < start + fuel; i++) s[i] = x;` (the fill of `assign`). -/
def fillLoop {T : Type} (x : T) (s : Nat → T) (i : Nat) : Nat → (Nat → T)
  | 0 => s
  | fuel + 1 => fillLoop x (Function.update s i x) (i + 1) fuel

/-- Member `reserve(alocar)`: no-op if `alocar <= m_capacity`, else reallocate to
exactly `alocar` slots, copying the first `m_end` elements. -/
def reserve {T : Type} [Inhabited T] (v : vector T) (alocar : Nat) : vector T :=
  if alocar ≤ v.m_capacity then v
  else
    { m_storage := newBufFrom v.m_storage v.m_end, m_capacity := alocar, m_end := v.m_end }

/-- Member `shrink_to_fit()`: if `m_capacity > m_end`, reallocate to exactly `m_end` slots. -/
def shrink_to_fit {T : Type} [Inhabited T] (v : vector T) : vector T :=
  if v.m_end < v.m_capacity then
    { m_storage := newBufFrom v.m_storage v.m_end, m_capacity := v.m_end, m_end := v.m_end }
  else v

/-- Member `clear()`: destroy live elements, `m_end = 0` (capacity untouched). -/
def clear {T : Type} (v : vector T) : vector T := { v with m_end := 0 }

/-- Copy constructor: fresh buffer of `vec.m_capacity` slots, copy the first
`vec.m_end` elements. -/
def copyCtor {T : Type} [Inhabited T] (src : vector T) : vector T :=
  { m_storage := newBufFrom src.m_storage src.m_end,
    m_capacity := src.m_capacity, m_end := src.m_end }

/-- Copy-assignment `operator=`: if `vec.m_end <= m_capacity` reuse the
buffer (copy `vec.m_end` elements, set `m_end`); otherwise reallocate to
exactly `vec.m_end` slots and set `m_capacity = m_end = vec.m_end`. -/
def copyAssign {T : Type} [Inhabited T] (v src : vector T) : vector T :=
  if src.m_end ≤ v.m_capacity then
    { m_storage := copyLoop src.m_storage v.m_storage 0 src.m_end,
      m_capacity := v.m_capacity, m_end := src.m_end }
  else
    { m_storage := copyLoop src.m_storage (fun _ => default) 0 src.m_end,
      m_capacity := src.m_end, m_end := src.m_end }

/-- Member `push_back(st)`: `if (m_capacity == 0) reserve(10); else if (m_end == m_capacity)
reserve(2*m_capacity);` then `m_storage[m_end] = st; m_end++;`. -/
def push_back {T : Type} [Inhabited T] (v : vector T) (st : T) : vector T :=
  let v1 := if v.m_capacity = 0 then reserve v 10
            else if v.m_end = v.m_capacity then reserve v (2 * v.m_capacity) else v
  { m_storage := Function.update v1.m_storage v1.m_end st,
    m_capacity := v1.m_capacity, m_end := v1.m_end + 1 }

/-- Member `push_front(st)`: `if (m_capacity == 0) reserve(10); else if (full()) reserve(2*m_capacity);`
then `for (i = m_end; i > 0; i--) m_storage[i] = m_storage[i-1];`,
`m_storage[0] = st; m_end++;`. -/
def push_front {T : Type} [Inhabited T] (v : vector T) (st : T) : vector T :=
  let v1 := if v.m_capacity = 0 then reserve v 10
            else if full v then reserve v (2 * v.m_capacity) else v
  { m_storage := Function.update (shiftUpLoop v1.m_storage 0 v1.m_end) 0 st,
    m_capacity := v1.m_capacity, m_end := v1.m_end + 1 }

/-- Member `pop_back()`: `if (m_end > 0) m_storage[--m_end].~T();`. -/
def pop_back {T : Type} (v : vector T) : vector T :=
  if 0 < v.m_end then { v with m_end := v.m_end - 1 } else v

/-- Member `pop_front()`: `if (m_end > 0) { for (i = 0; i < m_end; i++)
m_storage[i] = m_storage[i+1]; m_end--; }`.  Note the loop runs `m_end`
iterations, its last read being `m_storage[m_end]`. -/
def pop_front {T : Type} (v : vector T) : vector T :=
  if 0 < v.m_end then
    { v with m_storage := shiftLeftLoop v.m_storage 1 0 v.m_end, m_end := v.m_end - 1 }
  else v

/-- The slot indices read by the shift loop of `pop_front` on `v`
(the loop body reads `m_storage[i+1]` for `i` in `[0, m_end)`). -/
def pop_front_reads {T : Type} (v : vector T) : List Nat :=
  if 0 < v.m_end then (List.range v.m_end).map (fun i => i + 1) else []

/-- The slot indices written by the shift loop of `pop_front` on `v`
(the loop body writes `m_storage[i]` for `i` in `[0, m_end)`). -/
def pop_front_writes {T : Type} (v : vector T) : List Nat :=
  if 0 < v.m_end then List.range v.m_end else []

/-- Message of the `throw` in `insert`. -/
def insertErr : String := "The method insert cannot access this position"

/-- Message of the `throw` in range `erase`. -/
def eraseRangeErr : String := "The method erase cannot access this range of positions"

/-- Message of the `throw` in single-position `erase`. -/
def eraseErr : String := "The method erase cannot access this position"

/-- Message of the `throw` in `at`. -/
def atErr : String := "The method at cannot access this index"

/-- Message of the `throw` in `front`. -/
def frontErr : String := "The method front cannot access the index of first position"

/-- Message of the `throw` in `back`. -/
def backErr : String := "The method back cannot access the index of last position"

/-- Member `insert(pos_, value_)` (single element, iterator form), with `pos`
the offset `pos_ - begin()`:
`if (pos_ < begin() || pos_ > end()) throw std::out_of_range{…};`
`auto dif = pos_ - begin(); if (full()) reserve(m_capacity * 2); m_end++;`
`pos_ = begin() + dif; for (it = end()-1; it > pos_; it--) *it = *(it-1);`
`*pos_ = value_; return pos_;`.  The result carries the new state and the
offset of the returned iterator. -/
def insert {T : Type} [Inhabited T] (v : vector T) (pos : Int) (value : T) :
    Except (String × vector T) (vector T × Nat) :=
  if pos < 0 ∨ (v.m_end : Int) < pos then
    .error (insertErr, v)
  else
    let dif := pos.toNat
    let v1 := if full v then reserve v (2 * v.m_capacity) else v
    let n := v1.m_end + 1
    .ok ({ m_storage := Function.update (shiftUpLoop v1.m_storage dif (n - 1)) dif value,
           m_capacity := v1.m_capacity, m_end := n }, dif)

/-- Member `erase(pos)` (single position, iterator form), with `pos` the offset
`pos - begin()`:
`if (pos >= begin() && pos < end()) { for (it = pos; it < end()-1; ++it)
*it = *(it+1); m_end--; return pos; } else throw std::out_of_range{…};`. -/
def erase_pos {T : Type} (v : vector T) (pos : Int) :
    Except (String × vector T) (vector T × Int) :=
  if 0 ≤ pos ∧ pos < (v.m_end : Int) then
    let p := pos.toNat
    .ok ({ m_storage := shiftLeftLoop v.m_storage 1 p (v.m_end - 1 - p),
           m_capacity := v.m_capacity, m_end := v.m_end - 1 }, pos)
  else .error (eraseErr, v)

/-- Member `erase(first, last)` (range form), with `first`, `last` the offsets from
`begin()`:
`auto dif = last - first;`
`if ((first > last) || (first < begin() || last > end())) throw std::out_of_range{…};`
`for (it = first; it < end()-dif; it++) *it = *(it+dif); m_end -= dif; return first;`. -/
def erase_range {T : Type} (v : vector T) (first last : Int) :
    Except (String × vector T) (vector T × Int) :=
  let dif := last - first
  if last < first ∨ first < 0 ∨ (v.m_end : Int) < last then
    .error (eraseRangeErr, v)
  else
    let d := dif.toNat
    let f := first.toNat
    .ok ({ m_storage := shiftLeftLoop v.m_storage d f (v.m_end - d - f),
           m_capacity := v.m_capacity, m_end := v.m_end - d }, first)

/-- Member `assign(count_, value_)`: if `count_ <= size()` reuse the buffer (fill the
first `count_` slots, `m_end = count_`); else allocate `new T[count_]`,
set `m_capacity = m_end = count_`, and fill the first `count_` slots. -/
def assign {T : Type} [Inhabited T] (v : vector T) (count : Nat) (value : T) : vector T :=
  if count ≤ v.m_end then
    { v with m_storage := fillLoop value v.m_storage 0 count, m_end := count }
  else
    { m_storage := fillLoop value (fun _ => default) 0 count,
      m_capacity := count, m_end := count }

/-- Member `at(idx)`: `if (idx < size() && idx >= 0) return m_storage[idx];
else throw std::out_of_range{…};`. -/
def at_index {T : Type} (v : vector T) (idx : Nat) : Except String T :=
  if idx < v.m_end then .ok (v.m_storage idx) else .error atErr

/-- Member `front()`: `if (m_end > 0) return m_storage[0]; else throw …;`. -/
def front {T : Type} (v : vector T) : Except String T :=
  if 0 < v.m_end then .ok (v.m_storage 0) else .error frontErr

/-- Member `back()`: `if (m_end > 0) return m_storage[m_end - 1]; else throw …;`. -/
def back {T : Type} (v : vector T) : Except String T :=
  if 0 < v.m_end then .ok (v.m_storage (v.m_end - 1)) else .error backErr

/-- Non-member `swap`: exchanges `m_end`, `m_capacity` and `m_storage` of the
two containers. -/
def swapVec {T : Type} (a b : vector T) : vector T × vector T :=
  ({ m_storage := b.m_storage, m_capacity := b.m_capacity, m_end := b.m_end },
   { m_storage := a.m_storage, m_capacity := a.m_capacity, m_end := a.m_end })

/-- Non-member `operator==`: `if (a.size() == b.size()) { for (i = 0; i < b.size(); i++)
if (a.at(i) != b.at(i)) return false; return true; } else return false;`. -/
def vecEq {T : Type} [DecidableEq T] (a b : vector T) : Bool :=
  if a.m_end = b.m_end then
    (List.range b.m_end).all (fun i => decide (a.m_storage i = b.m_storage i))
  else false

/-- Non-member `operator!=`: `return a == b ? false : true;`. -/
def vecNe {T : Type} [DecidableEq T] (a b : vector T) : Bool :=
  if vecEq a b then false else true

/-- Type `MyForwardIterator<T>`: a raw pointer into some buffer, modelled as the
buffer together with the slot offset the pointer addresses. -/
structure MyForwardIterator (T : Type) where
  buf : Nat → T
  off : Nat

/-- Iterator dereference `operator*`: `return *m_ptr;`. -/
def iterDeref {T : Type} (it : MyForwardIterator T) : T := it.buf it.off

/-- Iterator `operator==`: `return *m_ptr == *rhs_.m_ptr;` — it compares the
pointed-to values. -/
def iterEq {T : Type} [DecidableEq T] (a b : MyForwardIterator T) : Bool :=
  decide (iterDeref a = iterDeref b)

/-- Iterator `operator!=`: `return *m_ptr != *rhs_.m_ptr;`. -/
def iterNe {T : Type} [DecidableEq T] (a b : MyForwardIterator T) : Bool :=
  decide (¬ iterDeref a = iterDeref b)

/-- The iterator `begin() + i` into the buffer of `v` (for `i = 0` this is
`begin()`, for `i = m_end` it is `end()`). -/
def iterAt {T : Type} (v : vector T) (i : Nat) : MyForwardIterator T :=
  { buf := v.m_storage, off := i }

/-! ## Loop characterizations -/

theorem copyLoop_apply {T : Type} (src : Nat → T) :
    ∀ (fuel : Nat) (dst : Nat → T) (i j : Nat),
      copyLoop src dst i fuel j = if i ≤ j ∧ j < i + fuel then src j else dst j := by
  intro fuel
  induction fuel with
  | zero =>
    intro dst i j
    simp only [copyLoop]
    rw [if_neg (by omega)]
  | succ fuel ih =>
    intro dst i j
    simp only [copyLoop]
    rw [ih]
    by_cases hA : i + 1 ≤ j ∧ j < i + 1 + fuel
    · rw [if_pos hA, if_pos (by omega)]
    · rw [if_neg hA]
      rcases eq_or_ne j i with he | hne
      · subst he
        rw [Function.update_same, if_pos (by omega)]
      · rw [Function.update_noteq hne, if_neg (by omega)]

theorem shiftLeftLoop_apply {T : Type} (dif : Nat) :
    ∀ (fuel : Nat) (s : Nat → T) (i j : Nat),
      shiftLeftLoop s dif i fuel j = if i ≤ j ∧ j < i + fuel then s (j + dif) else s j := by
  intro fuel
  induction fuel with
  | zero =>
    intro s i j
    simp only [shiftLeftLoop]
    rw [if_neg (by omega)]
  | succ fuel ih =>
    intro s i j
    simp only [shiftLeftLoop]
    rw [ih]
    by_cases hA : i + 1 ≤ j ∧ j < i + 1 + fuel
    · rw [if_pos hA, Function.update_noteq (by omega), if_pos (by omega)]
    · rw [if_neg hA]
      rcases eq_or_ne j i with he | hne
      · subst he
        rw [Function.update_same, if_pos (by omega)]
      · rw [Function.update_noteq hne, if_neg (by omega)]

theorem shiftUpLoop_apply {T : Type} (dif : Nat) :
    ∀ (i : Nat) (s : Nat → T) (j : Nat),
      shiftUpLoop s dif i j = if dif < j ∧ j ≤ i then s (j - 1) else s j := by
  intro i
  induction i with
  | zero =>
    intro s j
    simp only [shiftUpLoop]
    rw [if_neg (by omega)]
  | succ i ih =>
    intro s j
    simp only [shiftUpLoop]
    by_cases hc : dif < i + 1
    · rw [if_pos hc, ih]
      by_cases hA : dif < j ∧ j ≤ i
      · rw [if_pos hA, Function.update_noteq (by omega), if_pos (by omega)]
      · rw [if_neg hA]
        rcases eq_or_ne j (i + 1) with he | hne
        · subst he
          rw [Function.update_same, if_pos (by omega)]
          simp
        · rw [Function.update_noteq hne, if_neg (by omega)]
    · rw [if_neg hc, if_neg (by omega)]

theorem fillLoop_apply {T : Type} (x : T) :
    ∀ (fuel : Nat) (s : Nat → T) (i j : Nat),
      fillLoop x s i fuel j = if i ≤ j ∧ j < i + fuel then x else s j := by
  intro fuel
  induction fuel with
  | zero =>
    intro s i j
    simp only [fillLoop]
    rw [if_neg (by omega)]
  | succ fuel ih =>
    intro s i j
    simp only [fillLoop]
    rw [ih]
    by_cases hA : i + 1 ≤ j ∧ j < i + 1 + fuel
    · rw [if_pos hA, if_pos (by omega)]
    · rw [if_neg hA]
      rcases eq_or_ne j i with he | hne
      · subst he
        rw [Function.update_same, if_pos (by omega)]
      · rw [Function.update_noteq hne, if_neg (by omega)]

theorem newBufFrom_apply {T : Type} [Inhabited T] (src : Nat → T) (n j : Nat) :
    newBufFrom src n j = if j < n then src j else default := by
  rw [newBufFrom, copyLoop_apply]
  by_cases h : j < n
  · rw [if_pos (by omega), if_pos h]
  · rw [if_neg (by omega), if_neg h]

theorem reserve_m_end {T : Type} [Inhabited T] (v : vector T) (n : Nat) :
    (reserve v n).m_end = v.m_end := by
  rw [reserve]; split <;> rfl

theorem reserve_m_capacity {T : Type} [Inhabited T] (v : vector T) (n : Nat) :
    (reserve v n).m_capacity = max v.m_capacity n := by
  rw [reserve]; split
  · omega
  · simp only
    omega

theorem reserve_apply_live {T : Type} [Inhabited T] (v : vector T) (n j : Nat)
    (hj : j < v.m_end) : (reserve v n).m_storage j = v.m_storage j := by
  rw [reserve]; split
  · rfl
  · simp only
    rw [newBufFrom_apply, if_pos hj]

/-! ## Behaviour of `insert` and `erase` at valid positions -/

/-- On a valid position (`begin() ≤ pos ≤ end()`), `insert` succeeds and
returns a state whose live slots are the old ones with `value` spliced in at
offset `pos`, together with the iterator offset `pos`. -/
theorem insert_ok_spec {T : Type} [Inhabited T] (v : vector T) (x : T) (p : Int)
    (h0 : 0 ≤ p) (h1 : p ≤ (v.m_end : Int)) :
    ∃ w : vector T, insert v p x = Except.ok (w, p.toNat) ∧
      w.m_end = v.m_end + 1 ∧
      v.m_capacity ≤ w.m_capacity ∧
      (∀ j, j < p.toNat → w.m_storage j = v.m_storage j) ∧
      w.m_storage p.toNat = x ∧
      (∀ j, p.toNat < j → j ≤ v.m_end → w.m_storage j = v.m_storage (j - 1)) := by
  have hg : ¬ (p < 0 ∨ (v.m_end : Int) < p) := by omega
  obtain ⟨v1, hv1e, hv1c, hv1s, hins⟩ :
      ∃ v1 : vector T, v1.m_end = v.m_end ∧ v.m_capacity ≤ v1.m_capacity ∧
        (∀ j, j < v.m_end → v1.m_storage j = v.m_storage j) ∧
        insert v p x =
          Except.ok (⟨Function.update (shiftUpLoop v1.m_storage p.toNat v1.m_end) p.toNat x,
            v1.m_capacity, v1.m_end + 1⟩, p.toNat) := by
    refine ⟨if full v then reserve v (2 * v.m_capacity) else v, ?_, ?_, ?_, ?_⟩
    · split
      · exact reserve_m_end v _
      · rfl
    · split
      · rw [reserve_m_capacity]; omega
      · exact Nat.le_refl _
    · intro j hj
      split
      · exact reserve_apply_live v _ j hj
      · rfl
    · rw [insert, if_neg hg]
      rfl
  have hp : p.toNat ≤ v.m_end := by omega
  refine ⟨_, hins, by simp [hv1e], by simpa using hv1c, ?_, ?_, ?_⟩
  · intro j hj
    simp only
    rw [Function.update_noteq (by omega), shiftUpLoop_apply, if_neg (by omega),
      hv1s j (by omega)]
  · simp only
    rw [Function.update_same]
  · intro j hj1 hj2
    simp only
    rw [Function.update_noteq (by omega), shiftUpLoop_apply, if_pos (by omega),
      hv1s (j - 1) (by omega)]

/-- On a valid position (`begin() ≤ pos < end()`), single-position `erase`
succeeds, closing the gap by shifting the suffix one slot left and
decrementing the size. -/
theorem erase_ok_spec {T : Type} (v : vector T) (p : Int)
    (h0 : 0 ≤ p) (h1 : p < (v.m_end : Int)) :
    ∃ u : vector T, erase_pos v p = Except.ok (u, p) ∧
      u.m_end = v.m_end - 1 ∧
      u.m_capacity = v.m_capacity ∧
      (∀ j, j < p.toNat → u.m_storage j = v.m_storage j) ∧
      (∀ j, p.toNat ≤ j → j < v.m_end - 1 → u.m_storage j = v.m_storage (j + 1)) := by
  have hg : 0 ≤ p ∧ p < (v.m_end : Int) := ⟨h0, h1⟩
  have hp : p.toNat < v.m_end := by omega
  have hres : erase_pos v p =
      Except.ok (⟨shiftLeftLoop v.m_storage 1 p.toNat (v.m_end - 1 - p.toNat),
        v.m_capacity, v.m_end - 1⟩, p) := by
    rw [erase_pos, if_pos hg]
  refine ⟨_, hres, rfl, rfl, ?_, ?_⟩
  · intro j hj
    simp only
    rw [shiftLeftLoop_apply, if_neg (by omega)]
  · intro j hj1 hj2
    simp only
    rw [shiftLeftLoop_apply, if_pos (by omega)]

/-! ## Claim theorems -/

/-- C1: the claimed invariant "0 ≤ size ≤ capacity holds in every reachable
state" fails on the code: starting from a default-constructed vector
(capacity 0, size 0) — a reachable state — the public operation
`insert(begin(), 1)` succeeds and leaves `m_end = 1 > m_capacity = 0`,
because `insert` grows a full container with `reserve(2 * m_capacity)`,
which is `reserve(0)`, a no-op, and then increments `m_end` anyway. -/
theorem claim_C1_invariant_violated :
    ∃ w : vector Int, insert (mkVector Int 0) 0 1 = Except.ok (w, 0) ∧
      w.m_capacity < w.m_end :=
  ⟨_, rfl, by decide⟩

/-- C2: the growth-policy claim fails on the code for `insert`: `push_back`
and `push_front` do take a capacity-0 container to capacity 10, and a full
container of capacity `c > 0` to `2c`, but a single-element `insert` into a
full capacity-0 container calls `reserve(2 * 0)`, a no-op, leaving capacity
0 instead of the claimed 10. -/
theorem claim_C2_growth_policy_diverges :
    (push_back (mkVector Int 0) 1).m_capacity = 10 ∧
    (push_front (mkVector Int 0) 1).m_capacity = 10 ∧
    (push_back (ofList [(1 : Int), 2, 3]) 4).m_capacity = 6 ∧
    (push_front (ofList [(1 : Int), 2, 3]) 4).m_capacity = 6 ∧
    (∃ w : vector Int, insert (ofList [(1 : Int), 2, 3]) 0 9 = Except.ok (w, 0) ∧
      w.m_capacity = 6) ∧
    ∃ w : vector Int, insert (mkVector Int 0) 0 1 = Except.ok (w, 0) ∧
      w.m_capacity = 0 :=
  ⟨by decide, by decide, by decide, by decide, ⟨_, rfl, by decide⟩, ⟨_, rfl, by decide⟩⟩

/-- C3: iterator equality (`==`, `!=`) compares the pointed-to values, not
the positions: for iterators over live slots `i`, `j` of a vector, `a == b`
holds exactly when the referenced elements are equal (and `!=` is the value
disequality), so distinct slots holding equal values compare equal. -/
theorem claim_C3_iterator_equality_is_value_based {T : Type} [DecidableEq T]
    (v : vector T) (i j : Nat) (_hi : i < v.m_end) (_hj : j < v.m_end) :
    (iterEq (iterAt v i) (iterAt v j) = true ↔ v.m_storage i = v.m_storage j) ∧
    (iterNe (iterAt v i) (iterAt v j) = true ↔ ¬ v.m_storage i = v.m_storage j) := by
  constructor <;> simp [iterEq, iterNe, iterDeref, iterAt]

/-- Witness for C3: in `{5, 7, 5}` the iterators at offsets 0 and 2 reference
different slots that hold equal values, and they compare equal. -/
theorem claim_C3_witness :
    (0 : Nat) < (ofList [(5 : Int), 7, 5]).m_end ∧
    (2 : Nat) < (ofList [(5 : Int), 7, 5]).m_end ∧
    iterEq (iterAt (ofList [(5 : Int), 7, 5]) 0) (iterAt (ofList [(5 : Int), 7, 5]) 2) = true :=
  ⟨by decide, by decide,
    (claim_C3_iterator_equality_is_value_based (ofList [(5 : Int), 7, 5]) 0 2
      (by decide) (by decide)).1.mpr (by decide)⟩

/-- C5: checked access errs exactly at its boundary: `at(idx)` raises
Out-of-Range iff `idx ≥ size` and otherwise returns the element at `idx`;
`front()` / `back()` raise Out-of-Range iff the container is empty and
otherwise return the first / last live element. -/
theorem claim_C5_checked_access_boundaries {T : Type} (v : vector T) (idx : Nat) :
    (at_index v idx = Except.error atErr ↔ v.m_end ≤ idx) ∧
    (idx < v.m_end → at_index v idx = Except.ok (v.m_storage idx)) ∧
    (front v = Except.error frontErr ↔ v.m_end = 0) ∧
    (0 < v.m_end → front v = Except.ok (v.m_storage 0)) ∧
    (back v = Except.error backErr ↔ v.m_end = 0) ∧
    (0 < v.m_end → back v = Except.ok (v.m_storage (v.m_end - 1))) := by
  refine ⟨?_, ?_, ?_, ?_, ?_, ?_⟩ <;>
    simp only [at_index, front, back] <;> split <;> simp_all <;> omega

/-- Witness for C5: concrete checked accesses on `{4, 5}` and on an empty
vector. -/
theorem claim_C5_witness :
    (0 : Nat) < (ofList [(4 : Int), 5]).m_end ∧
    at_index (ofList [(4 : Int), 5]) 0 = Except.ok 4 ∧
    front (ofList [(4 : Int), 5]) = Except.ok 4 ∧
    back (ofList [(4 : Int), 5]) = Except.ok 5 ∧
    at_index (ofList [(4 : Int), 5]) 2 = Except.error atErr :=
  ⟨by decide,
    (claim_C5_checked_access_boundaries (ofList [(4 : Int), 5]) 0).2.1 (by decide),
    (claim_C5_checked_access_boundaries (ofList [(4 : Int), 5]) 0).2.2.2.1 (by decide),
    (claim_C5_checked_access_boundaries (ofList [(4 : Int), 5]) 0).2.2.2.2.2 (by decide),
    (claim_C5_checked_access_boundaries (ofList [(4 : Int), 5]) 2).1.mpr (by decide)⟩

/-- C4: `insert` raises Out-of-Range exactly when its position lies outside
`[begin(), end()]`, and `erase` exactly when the position / range lies
outside its valid bound (including `first > last`); the guard runs before
any reallocation or shifting, so the error carries the container exactly
as it was (size, capacity and contents unchanged). -/
theorem claim_C4_positions_validated_before_mutation {T : Type} [Inhabited T] :
    (∀ (v : vector T) (pos : Int) (x : T),
        insert v pos x = Except.error (insertErr, v) ↔
          pos < 0 ∨ (v.m_end : Int) < pos) ∧
    (∀ (v : vector T) (pos : Int),
        erase_pos v pos = Except.error (eraseErr, v) ↔
          ¬ (0 ≤ pos ∧ pos < (v.m_end : Int))) ∧
    (∀ (v : vector T) (first last : Int),
        erase_range v first last = Except.error (eraseRangeErr, v) ↔
          last < first ∨ first < 0 ∨ (v.m_end : Int) < last) := by
  refine ⟨?_, ?_, ?_⟩
  · intro v pos x
    simp only [insert]
    split <;> simp_all
  · intro v pos
    simp only [erase_pos]
    split <;> simp_all
  · intro v first last
    simp only [erase_range]
    split <;> simp_all

/-- Witness for C4: rejected calls on `{1, 2}` — `insert` past `end()`,
`erase` at `end()`, and `erase` with `first > last` — all return the
untouched container. -/
theorem claim_C4_witness :
    insert (ofList [(1 : Int), 2]) 5 9 = Except.error (insertErr, ofList [(1 : Int), 2]) ∧
    erase_pos (ofList [(1 : Int), 2]) 2 = Except.error (eraseErr, ofList [(1 : Int), 2]) ∧
    erase_range (ofList [(1 : Int), 2]) 2 1 =
      Except.error (eraseRangeErr, ofList [(1 : Int), 2]) :=
  ⟨((claim_C4_positions_validated_before_mutation (T := Int)).1 _ 5 9).mpr (by decide),
   ((claim_C4_positions_validated_before_mutation (T := Int)).2.1 _ 2).mpr (by decide),
   ((claim_C4_positions_validated_before_mutation (T := Int)).2.2 _ 2 1).mpr (by decide)⟩

/-- C6: inserting `x` at any valid position `p ∈ [begin(), end()]` and then
erasing at the iterator returned by `insert` restores the original live
sequence and the original size. -/
theorem claim_C6_insert_then_erase_restores {T : Type} [Inhabited T]
    (v : vector T) (x : T) (p : Int) (h0 : 0 ≤ p) (h1 : p ≤ (v.m_end : Int)) :
    ∃ w : vector T, insert v p x = Except.ok (w, p.toNat) ∧
      ∃ u : vector T, erase_pos w (p.toNat : Int) = Except.ok (u, (p.toNat : Int)) ∧
        liveList u = liveList v ∧ u.m_end = v.m_end := by
  obtain ⟨w, hw, hwe, _hwc, hwlt, hwd, hwgt⟩ := insert_ok_spec v x p h0 h1
  have h0' : (0 : Int) ≤ (p.toNat : Int) := by omega
  have h1' : (p.toNat : Int) < (w.m_end : Int) := by omega
  obtain ⟨u, hu, hue, _huc, hult, hugt⟩ := erase_ok_spec w (p.toNat : Int) h0' h1'
  have hne : u.m_end = v.m_end := by omega
  refine ⟨w, hw, u, hu, ?_, hne⟩
  unfold liveList
  rw [hne]
  refine List.map_congr_left ?_
  intro j hj
  rw [List.mem_range] at hj
  by_cases hjp : j < p.toNat
  · rw [hult j (by omega), hwlt j hjp]
  · have h2 : p.toNat ≤ j := by omega
    rw [hugt j (by omega) (by omega), hwgt (j + 1) (by omega) (by omega)]
    simp

/-- Witness for C6: on `{1, 2, 3}`, `insert(begin() + 1, 9)` followed by
`erase` at the returned iterator restores the sequence and the size. -/
theorem claim_C6_witness :
    (0 : Int) ≤ 1 ∧ (1 : Int) ≤ ((ofList [(1 : Int), 2, 3]).m_end : Int) ∧
    ∃ w : vector Int, insert (ofList [(1 : Int), 2, 3]) 1 9 = Except.ok (w, 1) ∧
      ∃ u : vector Int, erase_pos w 1 = Except.ok (u, 1) ∧
        liveList u = liveList (ofList [(1 : Int), 2, 3]) ∧
        u.m_end = (ofList [(1 : Int), 2, 3]).m_end :=
  ⟨by decide, by decide,
    claim_C6_insert_then_erase_restores (ofList [(1 : Int), 2, 3]) 9 1
      (by decide) (by decide)⟩

/-- C7: `operator==` holds exactly when the two containers have equal size
and equal live elements at every index; capacity plays no role; and
`operator!=` is the exact negation. -/
theorem claim_C7_vector_equality_by_value {T : Type} [DecidableEq T] (a b : vector T) :
    (vecEq a b = true ↔
      a.m_end = b.m_end ∧ ∀ i, i < b.m_end → a.m_storage i = b.m_storage i) ∧
    vecNe a b = ! vecEq a b ∧
    (∀ ca cb : Nat,
      vecEq ⟨a.m_storage, ca, a.m_end⟩ ⟨b.m_storage, cb, b.m_end⟩ = vecEq a b) := by
  refine ⟨?_, ?_, fun ca cb => rfl⟩
  · rw [vecEq]
    split
    · rename_i h
      simp [h, List.all_eq_true, List.mem_range]
    · rename_i h
      simp [h]
  · rw [vecNe]
    split <;> simp_all

/-- Witness for C7: `{1,2,3} == {1,2,3}`, and `!=` agrees with the negation
of `==` on `{1,2,3}` vs `{3,2,1}`. -/
theorem claim_C7_witness :
    vecEq (ofList [(1 : Int), 2, 3]) (ofList [(1 : Int), 2, 3]) = true ∧
    vecNe (ofList [(1 : Int), 2, 3]) (ofList [(3 : Int), 2, 1]) =
      ! vecEq (ofList [(1 : Int), 2, 3]) (ofList [(3 : Int), 2, 1]) :=
  ⟨(claim_C7_vector_equality_by_value (ofList [(1 : Int), 2, 3])
      (ofList [(1 : Int), 2, 3])).1.mpr (by decide),
   (claim_C7_vector_equality_by_value (ofList [(1 : Int), 2, 3])
      (ofList [(3 : Int), 2, 1])).2.1⟩

/-- C8: `assign(count, value)` leaves exactly `count` copies of `value` as
the live elements; if `count ≤ size` the storage is reused and capacity is
unchanged, otherwise a buffer of exactly `count` slots is allocated, so
size = capacity = count. -/
theorem claim_C8_assign_two_branches {T : Type} [Inhabited T]
    (v : vector T) (count : Nat) (x : T) :
    ((assign v count x).m_end = count ∧
      ∀ i, i < count → (assign v count x).m_storage i = x) ∧
    (count ≤ v.m_end → (assign v count x).m_capacity = v.m_capacity) ∧
    (v.m_end < count → (assign v count x).m_capacity = count) := by
  rw [assign]
  by_cases h : count ≤ v.m_end
  · rw [if_pos h]
    refine ⟨⟨rfl, ?_⟩, fun _ => rfl, fun hc => absurd h (by omega)⟩
    intro i hi
    simp only
    rw [fillLoop_apply, if_pos (by omega)]
  · rw [if_neg h]
    refine ⟨⟨rfl, ?_⟩, fun hc => absurd hc h, fun _ => rfl⟩
    intro i hi
    simp only
    rw [fillLoop_apply, if_pos (by omega)]

/-- Witness for C8: `assign(2, 7)` on a size-5 container reuses storage
(capacity stays 5); `assign(5, 7)` on a size-2 container reallocates to
capacity exactly 5. -/
theorem claim_C8_witness :
    ((2 : Nat) ≤ (ofList [(9 : Int), 9, 9, 9, 9]).m_end ∧
      (assign (ofList [(9 : Int), 9, 9, 9, 9]) 2 7).m_capacity =
        (ofList [(9 : Int), 9, 9, 9, 9]).m_capacity) ∧
    ((ofList [(9 : Int), 9]).m_end < 5 ∧
      (assign (ofList [(9 : Int), 9]) 5 7).m_capacity = 5) :=
  ⟨⟨by decide, (claim_C8_assign_two_branches (ofList [(9 : Int), 9, 9, 9, 9]) 2 7).2.1
      (by decide)⟩,
   ⟨by decide, (claim_C8_assign_two_branches (ofList [(9 : Int), 9]) 5 7).2.2
      (by decide)⟩⟩

/-- C9 counterexample: capacity is not monotone outside the two exceptions
the claim names.  `assign(5, 7)` on a container with size 2 and capacity 10
reallocates to exactly 5 slots, shrinking capacity from 10 to 5; and `swap`
with a smaller container also lowers capacity.  Neither is `shrink_to_fit`
nor copy-assignment. -/
theorem claim_C9_counterexample :
    (assign (reserve (ofList [(1 : Int), 2]) 10) 5 7).m_capacity <
      (reserve (ofList [(1 : Int), 2]) 10).m_capacity ∧
    (swapVec (ofList [(1 : Int), 2, 3]) (ofList [(4 : Int)])).1.m_capacity <
      (ofList [(1 : Int), 2, 3]).m_capacity := by
  refine ⟨by decide, by decide⟩

/-- C9 (amended): capacity is non-decreasing across every operation except
explicit `shrink_to_fit`, `swap`, and `assign` when the new count exceeds
the current size (which reallocates to exactly `count`, possibly smaller);
copy-assignment — including from a smaller source — never decreases
capacity in this implementation. -/
theorem claim_C9_amended_capacity_monotone {T : Type} [Inhabited T] (v : vector T) :
    (∀ x : T, v.m_capacity ≤ (push_back v x).m_capacity) ∧
    (∀ x : T, v.m_capacity ≤ (push_front v x).m_capacity) ∧
    v.m_capacity ≤ (pop_back v).m_capacity ∧
    v.m_capacity ≤ (pop_front v).m_capacity ∧
    v.m_capacity ≤ (clear v).m_capacity ∧
    (∀ n, v.m_capacity ≤ (reserve v n).m_capacity) ∧
    (∀ (p : Int) (x : T) (w : vector T) (r : Nat),
      insert v p x = Except.ok (w, r) → v.m_capacity ≤ w.m_capacity) ∧
    (∀ (p : Int) (x : T) (s : String) (u : vector T),
      insert v p x = Except.error (s, u) → v.m_capacity ≤ u.m_capacity) ∧
    (∀ (p : Int) (w : vector T) (r : Int),
      erase_pos v p = Except.ok (w, r) → v.m_capacity ≤ w.m_capacity) ∧
    (∀ (a b : Int) (w : vector T) (r : Int),
      erase_range v a b = Except.ok (w, r) → v.m_capacity ≤ w.m_capacity) ∧
    (∀ (count : Nat) (x : T), count ≤ v.m_end →
      v.m_capacity ≤ (assign v count x).m_capacity) ∧
    (∀ src : vector T, v.m_capacity ≤ (copyAssign v src).m_capacity) := by
  have hres : ∀ n, v.m_capacity ≤ (reserve v n).m_capacity := by
    intro n; rw [reserve_m_capacity]; omega
  refine ⟨?_, ?_, ?_, ?_, ?_, hres, ?_, ?_, ?_, ?_, ?_, ?_⟩
  · intro x
    show v.m_capacity ≤ (if v.m_capacity = 0 then reserve v 10
      else if v.m_end = v.m_capacity then reserve v (2 * v.m_capacity) else v).m_capacity
    split
    · exact hres 10
    · split
      · exact hres _
      · exact Nat.le_refl _
  · intro x
    show v.m_capacity ≤ (if v.m_capacity = 0 then reserve v 10
      else if full v then reserve v (2 * v.m_capacity) else v).m_capacity
    split
    · exact hres 10
    · split
      · exact hres _
      · exact Nat.le_refl _
  · simp only [pop_back]
    split <;> exact Nat.le_refl _
  · simp only [pop_front]
    split <;> exact Nat.le_refl _
  · exact Nat.le_refl _
  · intro p x w r h
    simp only [insert] at h
    split at h
    · simp at h
    · simp only [Except.ok.injEq, Prod.mk.injEq] at h
      obtain ⟨hw, -⟩ := h
      subst hw
      show v.m_capacity ≤ (if full v then reserve v (2 * v.m_capacity) else v).m_capacity
      split
      · exact hres _
      · exact Nat.le_refl _
  · intro p x s u h
    simp only [insert] at h
    split at h
    · simp only [Except.error.injEq, Prod.mk.injEq] at h
      obtain ⟨-, hu⟩ := h
      subst hu
      exact Nat.le_refl _
    · simp at h
  · intro p w r h
    simp only [erase_pos] at h
    split at h
    · simp only [Except.ok.injEq, Prod.mk.injEq] at h
      obtain ⟨hw, -⟩ := h
      subst hw
      exact Nat.le_refl _
    · simp at h
  · intro a b w r h
    simp only [erase_range] at h
    split at h
    · simp at h
    · simp only [Except.ok.injEq, Prod.mk.injEq] at h
      obtain ⟨hw, -⟩ := h
      subst hw
      exact Nat.le_refl _
  · intro count x hcount
    rw [assign, if_pos hcount]
  · intro src
    simp only [copyAssign]
    split
    · exact Nat.le_refl _
    · rename_i h
      show v.m_capacity ≤ src.m_end
      omega

/-- Witness for C9 (amended): concrete monotone steps — a `push_back` on
`{1, 2}` and an `assign` whose count stays within the size. -/
theorem claim_C9_witness :
    (ofList [(1 : Int), 2]).m_capacity ≤ (push_back (ofList [(1 : Int), 2]) 3).m_capacity ∧
    (1 : Nat) ≤ (ofList [(1 : Int), 2]).m_end ∧
    (ofList [(1 : Int), 2]).m_capacity ≤ (assign (ofList [(1 : Int), 2]) 1 7).m_capacity :=
  ⟨(claim_C9_amended_capacity_monotone (ofList [(1 : Int), 2])).1 3,
   by decide,
   (claim_C9_amended_capacity_monotone
      (ofList [(1 : Int), 2])).2.2.2.2.2.2.2.2.2.2.1 1 7 (by decide)⟩

/-- C10: `pop_front` on a non-empty vector does remove the first element,
shift the rest left and decrement the size, but its shift loop runs `i`
from `0` to `m_end - 1` reading `m_storage[i + 1]`, so its last read is
slot `m_end` — out of bounds whenever the vector is full.  On the full
vector `{1, 2, 3}` (size = capacity = 3) the loop reads slot 3, which does
not lie within the allocated capacity 3. -/
theorem claim_C10_pop_front_reads_out_of_bounds :
    liveList (pop_front (ofList [(1 : Int), 2, 3])) = [2, 3] ∧
    (pop_front (ofList [(1 : Int), 2, 3])).m_end = 2 ∧
    (ofList [(1 : Int), 2, 3]).m_end ∈ pop_front_reads (ofList [(1 : Int), 2, 3]) ∧
    ¬ (ofList [(1 : Int), 2, 3]).m_end < (ofList [(1 : Int), 2, 3]).m_capacity := by
  refine ⟨by decide, by decide, by decide, by decide⟩

end sc
